import Mathlib

/-!
Verification of the conversation-session core of a small chat client
(`main-gpt-4o-v7.py`): history reconstruction from remote messages,
message submission with optional image upload, lazy thread creation,
run polling, and error propagation of the remote HTTP operations.

The Python functions are embedded shallowly: pure functions become Lean
functions; each HTTP-performing function is parametrised by an oracle
`net : Request → HttpResponse` (respectively `polls : Nat → HttpResponse`
for the poll loop) and returns the list of requests it issued together
with its `Except` result, so that call ordering and failure propagation
are visible in the model.
-/

namespace ChatCore

/-- A content block of a remote message: the tagged variant
`{"type": "text", ...}` / `{"type": "image_file", ...}`. -/
inductive ContentBlock where
  | text (value : String)
  | image_file (file_id : String)
deriving DecidableEq, Repr

/-- A remote message as read by `reconstruct_history`:
`{"role": ..., "created_at": ..., "content": [...]}`. -/
structure RemoteMessage where
  role : String
  created_at : Nat
  content : List ContentBlock
deriving DecidableEq, Repr

/-- A default remote message, used only for out-of-range `List.getD`. -/
def defaultMsg : RemoteMessage := ⟨"", 0, []⟩

/-- A local history entry `{"role": ..., "content": ...}`. -/
structure Turn where
  role : String
  content : String
deriving DecidableEq, Repr

/-- Stable insertion of a message into a list already sorted by
`created_at`; building block of the model of Python's stable `sorted`. -/
def orderedInsertMsg (a : RemoteMessage) : List RemoteMessage → List RemoteMessage
  | [] => [a]
  | b :: l =>
    if a.created_at ≤ b.created_at then a :: b :: l else b :: orderedInsertMsg a l

/-- Model of `sorted(messages, key=lambda x: x["created_at"])`: a stable
sort ascending by `created_at` (insertion sort is stable, and every stable
sort by a key produces the same list). -/
def sortMessages : List RemoteMessage → List RemoteMessage
  | [] => []
  | a :: l => orderedInsertMsg a (sortMessages l)

/-- The turns one message contributes to the history: the body of the
`for m in sorted(...)` loop in `reconstruct_history`. -/
def turnsOfMessage (m : RemoteMessage) : List Turn :=
  if m.role = "user" then
    m.content.map fun c =>
      match c with
      | .text v => ⟨"user", v⟩
      | .image_file _ => ⟨"user", "[Imagem enviada]"⟩
  else if m.role = "assistant" then
    m.content.filterMap fun c =>
      match c with
      | .text v => some (⟨"assistant", v⟩ : Turn)
      | .image_file _ => none
  else []

/-- Embedding of `reconstruct_history`: sort by `created_at` (stable),
then append the turns of each message in order. -/
def reconstruct_history (messages : List RemoteMessage) : List Turn :=
  (sortMessages messages).flatMap turnsOfMessage

/-- Tag each message with its position in the input list (provenance). -/
def tagFrom (n : Nat) : List RemoteMessage → List (Nat × RemoteMessage)
  | [] => []
  | m :: ms => (n, m) :: tagFrom (n + 1) ms

/-- Stable insertion on tagged messages, comparing only the message key. -/
def orderedInsertTagged (a : Nat × RemoteMessage) :
    List (Nat × RemoteMessage) → List (Nat × RemoteMessage)
  | [] => [a]
  | b :: l =>
    if a.2.created_at ≤ b.2.created_at then a :: b :: l else b :: orderedInsertTagged a l

/-- Stable sort of tagged messages by `created_at` of the message. -/
def sortTagged : List (Nat × RemoteMessage) → List (Nat × RemoteMessage)
  | [] => []
  | a :: l => orderedInsertTagged a (sortTagged l)

/-- Provenance-tracking variant of `reconstruct_history`: every emitted
turn carries the input position of the message it came from. -/
def reconstruct_tagged (messages : List RemoteMessage) : List (Nat × Turn) :=
  (sortTagged (tagFrom 0 messages)).flatMap fun p =>
    (turnsOfMessage p.2).map fun t => (p.1, t)

/-- Message `i` comes strictly before message `j` in the order the spec
requires: strictly smaller `created_at`, or equal `created_at` with `i`
earlier in the input (stability). -/
def msgLexLt (ms : List RemoteMessage) (i j : Nat) : Prop :=
  i < ms.length ∧ j < ms.length ∧
    ((ms.getD i defaultMsg).created_at < (ms.getD j defaultMsg).created_at ∨
      ((ms.getD i defaultMsg).created_at = (ms.getD j defaultMsg).created_at ∧ i < j))

instance (ms : List RemoteMessage) (i j : Nat) : Decidable (msgLexLt ms i j) := by
  unfold msgLexLt; infer_instance

/-- Order in which the stable sort must keep two tagged messages. -/
def lexLt (a b : Nat × RemoteMessage) : Prop :=
  a.2.created_at < b.2.created_at ∨
    (a.2.created_at = b.2.created_at ∧ a.1 < b.1)

theorem map_snd_orderedInsertTagged (a : Nat × RemoteMessage) :
    ∀ l : List (Nat × RemoteMessage),
      (orderedInsertTagged a l).map Prod.snd = orderedInsertMsg a.2 (l.map Prod.snd)
  | [] => rfl
  | b :: l => by
    simp only [orderedInsertTagged, orderedInsertMsg, List.map_cons]
    by_cases h : a.2.created_at ≤ b.2.created_at
    · simp [h]
    · simp [h, map_snd_orderedInsertTagged a l]

theorem map_snd_sortTagged :
    ∀ l : List (Nat × RemoteMessage),
      (sortTagged l).map Prod.snd = sortMessages (l.map Prod.snd)
  | [] => rfl
  | a :: l => by
    simp only [sortTagged, sortMessages, List.map_cons]
    rw [map_snd_orderedInsertTagged, map_snd_sortTagged l]

theorem map_snd_tagFrom :
    ∀ (n : Nat) (ms : List RemoteMessage), (tagFrom n ms).map Prod.snd = ms
  | _, [] => rfl
  | n, m :: ms => by simp [tagFrom, map_snd_tagFrom (n + 1) ms]

theorem reconstruct_tagged_snd (ms : List RemoteMessage) :
    (reconstruct_tagged ms).map Prod.snd = reconstruct_history ms := by
  unfold reconstruct_tagged reconstruct_history
  rw [List.map_flatMap]
  have h1 : (fun p : Nat × RemoteMessage =>
        ((turnsOfMessage p.2).map fun t => (p.1, t)).map Prod.snd) =
      fun p : Nat × RemoteMessage => turnsOfMessage p.2 := by
    funext p
    rw [List.map_map]
    simp
  rw [h1]
  have h2 : (sortTagged (tagFrom 0 ms)).map Prod.snd = sortMessages ms := by
    rw [map_snd_sortTagged, map_snd_tagFrom]
  rw [← h2, List.flatMap_map]

theorem orderedInsertTagged_perm (a : Nat × RemoteMessage) :
    ∀ l : List (Nat × RemoteMessage), List.Perm (orderedInsertTagged a l) (a :: l)
  | [] => List.Perm.refl _
  | b :: l => by
    unfold orderedInsertTagged
    by_cases h : a.2.created_at ≤ b.2.created_at
    · rw [if_pos h]
    · rw [if_neg h]
      exact ((orderedInsertTagged_perm a l).cons b).trans (List.Perm.swap a b l)

theorem sortTagged_perm : ∀ l : List (Nat × RemoteMessage), List.Perm (sortTagged l) l
  | [] => List.Perm.refl _
  | a :: l => (orderedInsertTagged_perm a (sortTagged l)).trans ((sortTagged_perm l).cons a)

theorem mem_tagFrom :
    ∀ (n : Nat) (ms : List RemoteMessage) (p : Nat × RemoteMessage),
      p ∈ tagFrom n ms →
        n ≤ p.1 ∧ p.1 - n < ms.length ∧ p.2 = ms.getD (p.1 - n) defaultMsg
  | _, [], p, h => by simp [tagFrom] at h
  | n, m :: ms, p, h => by
    rcases List.mem_cons.mp h with h | h
    · subst h
      refine ⟨Nat.le_refl _, ?_, ?_⟩ <;> simp [Nat.sub_self]
    · obtain ⟨h1, h2, h3⟩ := mem_tagFrom (n + 1) ms p h
      refine ⟨Nat.le_of_succ_le h1, ?_, ?_⟩
      · simp only [List.length_cons]
        omega
      · have he : p.1 - n = (p.1 - (n + 1)) + 1 := by omega
        rw [he, List.getD_cons_succ]
        exact h3

theorem tagFrom_fst_lt :
    ∀ (n : Nat) (ms : List RemoteMessage),
      (tagFrom n ms).Pairwise (fun a b => a.1 < b.1)
  | _, [] => List.Pairwise.nil
  | n, m :: ms => by
    refine List.Pairwise.cons ?_ (tagFrom_fst_lt (n + 1) ms)
    intro p hp
    exact Nat.lt_of_lt_of_le (Nat.lt_succ_self n) (mem_tagFrom (n + 1) ms p hp).1

theorem orderedInsertTagged_pairwise (a : Nat × RemoteMessage) :
    ∀ l : List (Nat × RemoteMessage), l.Pairwise lexLt → (∀ x ∈ l, a.1 < x.1) →
      (orderedInsertTagged a l).Pairwise lexLt
  | [], _, _ => List.pairwise_singleton _ _
  | b :: l, hp, hidx => by
    unfold orderedInsertTagged
    have hp' := List.pairwise_cons.mp hp
    by_cases h : a.2.created_at ≤ b.2.created_at
    · rw [if_pos h]
      refine List.Pairwise.cons ?_ hp
      intro x hx
      rcases List.mem_cons.mp hx with rfl | hx
      · rcases Nat.lt_or_ge a.2.created_at x.2.created_at with hlt | hge
        · exact Or.inl hlt
        · exact Or.inr ⟨Nat.le_antisymm h hge, hidx x (List.mem_cons_self ..)⟩
      · have hbx : lexLt b x := hp'.1 x hx
        have hax : a.1 < x.1 := hidx x (List.mem_cons_of_mem _ hx)
        rcases hbx with hlt | ⟨heq, _⟩
        · exact Or.inl (Nat.lt_of_le_of_lt h hlt)
        · rcases Nat.lt_or_ge a.2.created_at x.2.created_at with h2 | h2
          · exact Or.inl h2
          · exact Or.inr ⟨Nat.le_antisymm (heq ▸ h) h2, hax⟩
    · rw [if_neg h]
      refine List.Pairwise.cons ?_
        (orderedInsertTagged_pairwise a l hp'.2
          (fun x hx => hidx x (List.mem_cons_of_mem _ hx)))
      intro x hx
      rcases List.mem_cons.mp ((orderedInsertTagged_perm a l).mem_iff.mp hx) with rfl | hx'
      · exact Or.inl (Nat.not_le.mp h)
      · exact hp'.1 x hx'

theorem sortTagged_pairwise :
    ∀ l : List (Nat × RemoteMessage),
      l.Pairwise (fun a b => a.1 < b.1) → (sortTagged l).Pairwise lexLt
  | [], _ => List.Pairwise.nil
  | a :: l, hp => by
    have hp' := List.pairwise_cons.mp hp
    refine orderedInsertTagged_pairwise a (sortTagged l) (sortTagged_pairwise l hp'.2) ?_
    intro x hx
    exact hp'.1 x ((sortTagged_perm l).mem_iff.mp hx)

theorem mem_sortTagged_char (ms : List RemoteMessage) (p : Nat × RemoteMessage)
    (h : p ∈ sortTagged (tagFrom 0 ms)) :
    p.1 < ms.length ∧ p.2 = ms.getD p.1 defaultMsg := by
  obtain ⟨-, h2, h3⟩ :=
    mem_tagFrom 0 ms p ((sortTagged_perm (tagFrom 0 ms)).mem_iff.mp h)
  constructor
  · simpa using h2
  · simpa using h3

theorem lexLt_to_msgLexLt (ms : List RemoteMessage) (a b : Nat × RemoteMessage)
    (ha : a ∈ sortTagged (tagFrom 0 ms)) (hb : b ∈ sortTagged (tagFrom 0 ms))
    (h : lexLt a b) : msgLexLt ms a.1 b.1 := by
  obtain ⟨ha1, ha2⟩ := mem_sortTagged_char ms a ha
  obtain ⟨hb1, hb2⟩ := mem_sortTagged_char ms b hb
  refine ⟨ha1, hb1, ?_⟩
  rw [← ha2, ← hb2]
  exact h

theorem reconstruct_tagged_pairwise (ms : List RemoteMessage) :
    (reconstruct_tagged ms).Pairwise
      (fun x y : Nat × Turn => x.1 = y.1 ∨ msgLexLt ms x.1 y.1) := by
  unfold reconstruct_tagged
  refine List.pairwise_flatMap.mpr ⟨?_, ?_⟩
  · intro a _
    refine List.pairwise_map.mpr (List.pairwise_iff_getElem.mpr ?_)
    intro i j hi hj hij
    exact Or.inl rfl
  · have hL := sortTagged_pairwise (tagFrom 0 ms) (tagFrom_fst_lt 0 ms)
    refine hL.imp_of_mem ?_
    intro a b hma hmb hab x hx y hy
    obtain ⟨tx, -, rfl⟩ := List.mem_map.mp hx
    obtain ⟨ty, -, rfl⟩ := List.mem_map.mp hy
    exact Or.inr (lexLt_to_msgLexLt ms a b hma hmb hab)

/-- C1: the provenance-tagged reconstruction projects onto
`reconstruct_history`, and whenever message `i` has a strictly smaller
`created_at` than message `j` — or an equal one with `i` earlier in the
input (stability of the sort) — every turn emitted from message `i`
precedes every turn emitted from message `j` in the output. -/
theorem reconstruct_history_ordering (ms : List RemoteMessage) :
    (reconstruct_tagged ms).map Prod.snd = reconstruct_history ms ∧
    ∀ p q : Fin (reconstruct_tagged ms).length,
      msgLexLt ms ((reconstruct_tagged ms).get p).1 ((reconstruct_tagged ms).get q).1 →
      (p : Nat) < (q : Nat) := by
  refine ⟨reconstruct_tagged_snd ms, ?_⟩
  intro p q hpq
  have hQ := reconstruct_tagged_pairwise ms
  rcases Nat.lt_trichotomy (p : Nat) (q : Nat) with h | h | h
  · exact h
  · exfalso
    have hpq' : p = q := Fin.ext h
    subst hpq'
    obtain ⟨-, -, hc⟩ := hpq
    rcases hc with hc | ⟨-, hc⟩ <;> omega
  · exfalso
    have hQ' := List.pairwise_iff_get.mp hQ q p h
    rcases hQ' with heq | hlex
    · obtain ⟨-, -, hc⟩ := hpq
      rw [heq] at hc
      rcases hc with hc | ⟨-, hc⟩ <;> omega
    · obtain ⟨-, -, hc1⟩ := hpq
      obtain ⟨-, -, hc2⟩ := hlex
      rcases hc1 with hc1 | ⟨he1, hi1⟩ <;> rcases hc2 with hc2 | ⟨he2, hi2⟩ <;> omega

/-- Witness for C1: on a two-message list whose input order disagrees with
the `created_at` order, the turn from the earlier-created message comes
first. -/
theorem reconstruct_history_ordering_witness :
    msgLexLt [⟨"user", 2, [ContentBlock.text "b"]⟩, ⟨"user", 1, [ContentBlock.text "a"]⟩] 1 0 ∧
    (0 : Nat) < 1 := by
  refine ⟨by decide, ?_⟩
  exact (reconstruct_history_ordering
      [⟨"user", 2, [ContentBlock.text "b"]⟩, ⟨"user", 1, [ContentBlock.text "a"]⟩]).2
    ⟨0, by decide⟩ ⟨1, by decide⟩ (by decide)

/-- C2: for a user-role message, every content block yields exactly one
user turn in block order: a text block its text value, an image block the
fixed placeholder string. -/
theorem reconstruct_user_message (m : RemoteMessage) (h : m.role = "user") :
    reconstruct_history [m] =
      m.content.map fun c =>
        match c with
        | .text v => (⟨"user", v⟩ : Turn)
        | .image_file _ => (⟨"user", "[Imagem enviada]"⟩ : Turn) := by
  simp [reconstruct_history, sortMessages, orderedInsertMsg, turnsOfMessage, h]

/-- Witness for C2: `[Text "hi", ImageRef "f1"]` becomes
`[(user, "hi"), (user, placeholder)]` in that order. -/
theorem reconstruct_user_message_witness :
    (RemoteMessage.mk "user" 7 [ContentBlock.text "hi", ContentBlock.image_file "f1"]).role
        = "user" ∧
    reconstruct_history [⟨"user", 7, [ContentBlock.text "hi", ContentBlock.image_file "f1"]⟩] =
      [⟨"user", "hi"⟩, ⟨"user", "[Imagem enviada]"⟩] :=
  ⟨rfl,
    (reconstruct_user_message
        ⟨"user", 7, [ContentBlock.text "hi", ContentBlock.image_file "f1"]⟩ rfl).trans rfl⟩

/-- C3: for an assistant-role message, exactly the text blocks yield
assistant turns, in block order; non-text blocks are silently skipped. -/
theorem reconstruct_assistant_message (m : RemoteMessage) (h : m.role = "assistant") :
    reconstruct_history [m] =
      m.content.filterMap fun c =>
        match c with
        | .text v => some (⟨"assistant", v⟩ : Turn)
        | .image_file _ => none := by
  simp [reconstruct_history, sortMessages, orderedInsertMsg, turnsOfMessage, h]

/-- Witness for C3: `[ImageRef "f2", Text "ok"]` becomes exactly
`[(assistant, "ok")]`. -/
theorem reconstruct_assistant_message_witness :
    (RemoteMessage.mk "assistant" 7 [ContentBlock.image_file "f2", ContentBlock.text "ok"]).role
        = "assistant" ∧
    reconstruct_history
        [⟨"assistant", 7, [ContentBlock.image_file "f2", ContentBlock.text "ok"]⟩] =
      [⟨"assistant", "ok"⟩] :=
  ⟨rfl,
    (reconstruct_assistant_message
        ⟨"assistant", 7, [ContentBlock.image_file "f2", ContentBlock.text "ok"]⟩ rfl).trans rfl⟩

/-- C4: `reconstruct_history` is a pure total function of its input:
equal remote message lists give identical output sequences, so calling it
twice on the same input yields the same history. -/
theorem reconstruct_history_deterministic (ms₁ ms₂ : List RemoteMessage)
    (h : ms₁ = ms₂) : reconstruct_history ms₁ = reconstruct_history ms₂ :=
  congrArg reconstruct_history h

/-- Witness for C4 at a concrete one-message list. -/
theorem reconstruct_history_deterministic_witness :
    ([⟨"user", 1, [ContentBlock.text "hi"]⟩] : List RemoteMessage) =
        [⟨"user", 1, [ContentBlock.text "hi"]⟩] ∧
    reconstruct_history [⟨"user", 1, [ContentBlock.text "hi"]⟩] =
      reconstruct_history [⟨"user", 1, [ContentBlock.text "hi"]⟩] :=
  ⟨rfl, reconstruct_history_deterministic _ _ rfl⟩

/-- An HTTP response as far as the core reads it: the status code and the
parsed JSON fields the code extracts (`["id"]`, `["status"]`, `["data"]`). -/
structure HttpResponse where
  status_code : Nat
  bodyId : String
  bodyStatus : String
  bodyData : List RemoteMessage
deriving DecidableEq, Repr

/-- The error raised by `requests.Response.raise_for_status` (an
`HTTPError` carrying the offending status), the model's `RemoteApiError`. -/
structure RemoteApiError where
  status_code : Nat
deriving DecidableEq, Repr

/-- Model of `resp.raise_for_status()`: `requests` raises exactly for
client errors (4xx) and server errors (5xx). -/
def raise_for_status (r : HttpResponse) : Except RemoteApiError Unit :=
  if 400 ≤ r.status_code ∧ r.status_code < 600 then .error ⟨r.status_code⟩ else .ok ()

/-- The JSON payload of a create-message call: a role plus an ordered
content-block list. -/
structure MsgPayload where
  role : String
  content : List ContentBlock
deriving DecidableEq, Repr

/-- The HTTP requests the core can issue, with the data each carries. -/
inductive Request where
  | postThreads
  | postFiles (filename : String) (bytes : List Nat)
  | postMessage (thread_id : String) (payload : MsgPayload)
  | getMessages (thread_id : String)
  | postRun (thread_id : String) (assistant_id : String)
deriving DecidableEq, Repr

/-- Embedding of `create_thread`: one POST to `/threads`, then
`raise_for_status`, then read `["id"]`. Returns the issued requests and
the result. -/
def create_thread (net : Request → HttpResponse) :
    List Request × Except RemoteApiError String :=
  ([Request.postThreads],
    match raise_for_status (net Request.postThreads) with
    | .error e => .error e
    | .ok _ => .ok (net Request.postThreads).bodyId)

/-- Embedding of `upload_file`: one POST to `/files` with the filename and
bytes, then `raise_for_status`, then read `["id"]`. -/
def upload_file (net : Request → HttpResponse) (image_bytes : List Nat)
    (image_filename : String) : List Request × Except RemoteApiError String :=
  ([Request.postFiles image_filename image_bytes],
    match raise_for_status (net (Request.postFiles image_filename image_bytes)) with
    | .error e => .error e
    | .ok _ => .ok (net (Request.postFiles image_filename image_bytes)).bodyId)

/-- The fixed localisation instruction appended to every user text. -/
def instrucao_idioma : String := "Responda em português do Brasil."

/-- Python truthiness of the optional `image_bytes` (absent or empty
bytes are falsy). -/
def truthyBytes : Option (List Nat) → Bool
  | none => false
  | some bs => !bs.isEmpty

/-- Python truthiness of the optional `image_filename` (absent or empty
string are falsy). -/
def truthyName : Option String → Bool
  | none => false
  | some s => !(s == "")

/-- Embedding of `send_message`: build the text block from the user text
plus the language instruction; when `image_bytes and image_filename` is
truthy, first upload the file and append an image block (aborting if the
upload fails); then POST the message and `raise_for_status`. -/
def send_message (net : Request → HttpResponse) (thread_id : String)
    (content : String) (image_bytes : Option (List Nat))
    (image_filename : Option String) : List Request × Except RemoteApiError Unit :=
  let content_completo := content ++ "\n" ++ instrucao_idioma
  let data : MsgPayload := ⟨"user", [ContentBlock.text content_completo]⟩
  if truthyBytes image_bytes && truthyName image_filename then
    let up := upload_file net (image_bytes.getD []) (image_filename.getD "")
    match up.2 with
    | .error e => (up.1, .error e)
    | .ok file_id =>
      let data2 : MsgPayload := ⟨data.role, data.content ++ [ContentBlock.image_file file_id]⟩
      (up.1 ++ [Request.postMessage thread_id data2],
        match raise_for_status (net (Request.postMessage thread_id data2)) with
        | .error e => .error e
        | .ok _ => .ok ())
  else
    ([Request.postMessage thread_id data],
      match raise_for_status (net (Request.postMessage thread_id data)) with
      | .error e => .error e
      | .ok _ => .ok ())

/-- Embedding of `list_messages`: one GET, `raise_for_status`, read
`["data"]`. -/
def list_messages (net : Request → HttpResponse) (thread_id : String) :
    List Request × Except RemoteApiError (List RemoteMessage) :=
  ([Request.getMessages thread_id],
    match raise_for_status (net (Request.getMessages thread_id)) with
    | .error e => .error e
    | .ok _ => .ok (net (Request.getMessages thread_id)).bodyData)

/-- Embedding of `create_run`: one POST with the assistant id,
`raise_for_status`, read `["id"]`. -/
def create_run (net : Request → HttpResponse) (thread_id assistant_id : String) :
    List Request × Except RemoteApiError String :=
  ([Request.postRun thread_id assistant_id],
    match raise_for_status (net (Request.postRun thread_id assistant_id)) with
    | .error e => .error e
    | .ok _ => .ok (net (Request.postRun thread_id assistant_id)).bodyId)

/-- Python truthiness of `st.session_state["thread_id"]`: `None` and the
empty string are falsy. -/
def pyFalsyId : Option String → Bool
  | none => true
  | some s => s == ""

/-- Embedding of the thread-caching step of `main`
(`if not st.session_state["thread_id"]: ... = create_thread(...)`): when
the stored id is falsy, call `create_thread`; otherwise reuse the stored
id with no network call. -/
def ensure_thread (net : Request → HttpResponse) (thread_id : Option String) :
    List Request × Except RemoteApiError String :=
  if pyFalsyId thread_id then create_thread net
  else ([], .ok (thread_id.getD ""))

/-- The four run statuses that end the poll loop. -/
def terminal_statuses : List String := ["completed", "failed", "cancelled", "expired"]

/-- Embedding of `wait_for_run_completion`: the unbounded `while True`
poll loop, run for at most `fuel` polls starting at poll index `k` with
`sleeps` one-second sleeps already performed. Returns `none` when the
fuel is exhausted with the run still unfinished, otherwise the result
together with the total number of polls issued and of sleeps performed. -/
def wait_for_run_completion (polls : Nat → HttpResponse) :
    Nat → Nat → Nat → Option (Except RemoteApiError String × Nat × Nat)
  | 0, _, _ => none
  | fuel + 1, k, sleeps =>
    match raise_for_status (polls k) with
    | .error e => some (.error e, k + 1, sleeps)
    | .ok _ =>
      if (polls k).bodyStatus ∈ terminal_statuses then
        some (.ok (polls k).bodyStatus, k + 1, sleeps)
      else wait_for_run_completion polls fuel (k + 1) (sleeps + 1)

/-- C5: when a truthy image is supplied, the upload request is the first
request issued; if the upload response fails, the create-message request
is never issued and `send_message` fails with exactly the upload error;
if the upload succeeds, the create-message request follows the upload. -/
theorem send_message_upload_first (net : Request → HttpResponse)
    (thread_id content : String) (image_bytes : Option (List Nat))
    (image_filename : Option String)
    (himg : (truthyBytes image_bytes && truthyName image_filename) = true) :
    (send_message net thread_id content image_bytes image_filename).1.head? =
      some (Request.postFiles (image_filename.getD "") (image_bytes.getD [])) ∧
    (∀ e, raise_for_status
          (net (Request.postFiles (image_filename.getD "") (image_bytes.getD []))) =
        .error e →
      (send_message net thread_id content image_bytes image_filename).1 =
          [Request.postFiles (image_filename.getD "") (image_bytes.getD [])] ∧
        (send_message net thread_id content image_bytes image_filename).2 = .error e ∧
        ∀ tid p, Request.postMessage tid p ∉
          (send_message net thread_id content image_bytes image_filename).1) ∧
    (∀ u, raise_for_status
          (net (Request.postFiles (image_filename.getD "") (image_bytes.getD []))) =
        .ok u →
      ∃ pl, (send_message net thread_id content image_bytes image_filename).1 =
        [Request.postFiles (image_filename.getD "") (image_bytes.getD []),
          Request.postMessage thread_id pl]) := by
  rcases hrs : raise_for_status
      (net (Request.postFiles (image_filename.getD "") (image_bytes.getD []))) with e' | u'
  · refine ⟨?_, ?_, ?_⟩
    · simp [send_message, upload_file, himg, hrs]
    · intro e he
      cases he
      refine ⟨?_, ?_, ?_⟩
      · simp [send_message, upload_file, himg, hrs]
      · simp [send_message, upload_file, himg, hrs]
      · intro tid p hmem
        simp [send_message, upload_file, himg, hrs] at hmem
    · intro u hu
      cases hu
  · refine ⟨?_, ?_, ?_⟩
    · simp [send_message, upload_file, himg, hrs]
    · intro e he
      cases he
    · intro u hu
      exact ⟨⟨"user", [ContentBlock.text (content ++ "\n" ++ instrucao_idioma),
          ContentBlock.image_file
            (net (Request.postFiles (image_filename.getD "") (image_bytes.getD []))).bodyId]⟩,
        by simp [send_message, upload_file, himg, hrs]⟩

/-- A network oracle whose upload endpoint fails with a 500 while every
other endpoint succeeds. -/
def netUploadFails : Request → HttpResponse := fun r =>
  match r with
  | .postFiles _ _ => ⟨500, "", "", []⟩
  | _ => ⟨200, "ok", "", []⟩

/-- Witness for C5: with a failing upload, `send_message` fails with the
upload error and issues no create-message request. -/
theorem send_message_upload_first_witness :
    (truthyBytes (some [1]) && truthyName (some "a.png")) = true ∧
    (send_message netUploadFails "t1" "oi" (some [1]) (some "a.png")).2 =
      .error ⟨500⟩ ∧
    ∀ tid p, Request.postMessage tid p ∉
      (send_message netUploadFails "t1" "oi" (some [1]) (some "a.png")).1 := by
  have h := send_message_upload_first netUploadFails "t1" "oi" (some [1]) (some "a.png") rfl
  have h2 := h.2.1 ⟨500⟩ (by rfl)
  exact ⟨rfl, h2.2.1, h2.2.2⟩

/-- C8: every create-message request `send_message` issues goes to the
given thread with role `user`; its content is the single text block
`content ++ "\n" ++ instruction`, followed by exactly the uploaded image
reference when a truthy image was supplied, and by nothing otherwise. -/
theorem send_message_payload_shape (net : Request → HttpResponse)
    (thread_id content : String) (image_bytes : Option (List Nat))
    (image_filename : Option String) :
    ∀ tid p, Request.postMessage tid p ∈
        (send_message net thread_id content image_bytes image_filename).1 →
      tid = thread_id ∧ p.role = "user" ∧
      ((truthyBytes image_bytes && truthyName image_filename) = true →
        p.content = [ContentBlock.text (content ++ "\n" ++ instrucao_idioma),
          ContentBlock.image_file
            (net (Request.postFiles (image_filename.getD "")
              (image_bytes.getD []))).bodyId]) ∧
      ((truthyBytes image_bytes && truthyName image_filename) = false →
        p.content = [ContentBlock.text (content ++ "\n" ++ instrucao_idioma)]) := by
  intro tid p hmem
  by_cases hb : (truthyBytes image_bytes && truthyName image_filename) = true
  · rcases hrs : raise_for_status
        (net (Request.postFiles (image_filename.getD "") (image_bytes.getD []))) with e | u
    · simp [send_message, upload_file, hb, hrs] at hmem
    · simp [send_message, upload_file, hb, hrs] at hmem
      obtain ⟨h1, h2⟩ := hmem
      subst h1
      subst h2
      refine ⟨rfl, rfl, fun _ => rfl, ?_⟩
      intro hc
      rw [hb] at hc
      cases hc
  · have hb' : (truthyBytes image_bytes && truthyName image_filename) = false := by
      simpa using hb
    simp [send_message, hb'] at hmem
    obtain ⟨h1, h2⟩ := hmem
    subst h1
    subst h2
    refine ⟨rfl, rfl, ?_, fun _ => rfl⟩
    intro hc
    rw [hb'] at hc
    cases hc

/-- Witness for C8: sending text "oi" with no image issues one
create-message request whose payload is the single augmented text block. -/
theorem send_message_payload_shape_witness :
    Request.postMessage "t1"
        ⟨"user", [ContentBlock.text ("oi" ++ "\n" ++ instrucao_idioma)]⟩ ∈
      (send_message (fun _ => ⟨200, "id1", "", []⟩) "t1" "oi" none none).1 ∧
    (MsgPayload.mk "user" [ContentBlock.text ("oi" ++ "\n" ++ instrucao_idioma)]).role
      = "user" := by
  have hmem : Request.postMessage "t1"
      ⟨"user", [ContentBlock.text ("oi" ++ "\n" ++ instrucao_idioma)]⟩ ∈
      (send_message (fun _ => ⟨200, "id1", "", []⟩) "t1" "oi" none none).1 := by
    have ht : (send_message (fun _ => (⟨200, "id1", "", []⟩ : HttpResponse)) "t1" "oi"
        none none).1 =
        [Request.postMessage "t1"
          ⟨"user", [ContentBlock.text ("oi" ++ "\n" ++ instrucao_idioma)]⟩] := rfl
    rw [ht]
    exact List.mem_singleton.mpr rfl
  have h := send_message_payload_shape (fun _ => ⟨200, "id1", "", []⟩) "t1" "oi" none none
    "t1" ⟨"user", [ContentBlock.text ("oi" ++ "\n" ++ instrucao_idioma)]⟩ hmem
  exact ⟨hmem, h.2.1⟩

/-- C10: with falsy image bytes or a falsy filename, no upload request is
issued and the message is sent with only the text block; the call does
not fail when the create-message response is a success. -/
theorem send_message_falsy_image (net : Request → HttpResponse)
    (thread_id content : String) (image_bytes : Option (List Nat))
    (image_filename : Option String)
    (h : (truthyBytes image_bytes && truthyName image_filename) = false) :
    (send_message net thread_id content image_bytes image_filename).1 =
        [Request.postMessage thread_id
          ⟨"user", [ContentBlock.text (content ++ "\n" ++ instrucao_idioma)]⟩] ∧
    (∀ fn bs, Request.postFiles fn bs ∉
      (send_message net thread_id content image_bytes image_filename).1) ∧
    (∀ u, raise_for_status (net (Request.postMessage thread_id
          ⟨"user", [ContentBlock.text (content ++ "\n" ++ instrucao_idioma)]⟩)) = .ok u →
      (send_message net thread_id content image_bytes image_filename).2 = .ok ()) := by
  refine ⟨?_, ?_, ?_⟩
  · simp [send_message, h]
  · intro fn bs hmem
    simp [send_message, h] at hmem
  · intro u hu
    simp [send_message, h, hu]

/-- Witness for C10: empty image bytes with a filename present are
silently dropped; only the text message is sent. -/
theorem send_message_falsy_image_witness :
    (truthyBytes (some ([] : List Nat)) && truthyName (some "x.png")) = false ∧
    (send_message (fun _ => ⟨200, "id1", "", []⟩) "t1" "oi" (some []) (some "x.png")).1 =
      [Request.postMessage "t1"
        ⟨"user", [ContentBlock.text ("oi" ++ "\n" ++ instrucao_idioma)]⟩] :=
  ⟨rfl, (send_message_falsy_image (fun _ => ⟨200, "id1", "", []⟩) "t1" "oi"
    (some []) (some "x.png") rfl).1⟩

/-- C6 (amended): the first submission cycle issues exactly one
create-thread request, and once a non-empty id has been returned and
stored, a later cycle reuses it unchanged with no network call. -/
theorem ensure_thread_once (net : Request → HttpResponse) :
    (ensure_thread net none).1 = [Request.postThreads] ∧
    ∀ tid, (ensure_thread net none).2 = .ok tid → tid ≠ "" →
      ensure_thread net (some tid) = ([], .ok tid) := by
  constructor
  · simp [ensure_thread, pyFalsyId, create_thread]
  · intro tid _ hne
    have hf : pyFalsyId (some tid) = false := by
      simp [pyFalsyId, hne]
    simp [ensure_thread, hf]

/-- Witness for C6: with a remote returning id "th1", the second cycle
makes no request and returns the cached id. -/
theorem ensure_thread_once_witness :
    (ensure_thread (fun _ => ⟨200, "th1", "", []⟩) none).2 = .ok "th1" ∧
    ensure_thread (fun _ => ⟨200, "th1", "", []⟩) (some "th1") = ([], .ok "th1") := by
  refine ⟨rfl, ?_⟩
  exact (ensure_thread_once (fun _ => ⟨200, "th1", "", []⟩)).2 "th1" rfl (by decide)

/-- C6 counterexample: if the create-thread response carries the empty
string as id, the first cycle stores it, yet the next cycle treats the
stored id as unset and issues a second create-thread request. -/
theorem ensure_thread_empty_id_cex :
    (ensure_thread (fun _ => ⟨200, "", "", []⟩) none).2 = .ok "" ∧
    (ensure_thread (fun _ => ⟨200, "", "", []⟩) (some "")).1 = [Request.postThreads] := by
  constructor <;> rfl

/-- C9 (amended): every remote operation issues exactly one request, and
fails exactly when its response status is in 400..599 (the statuses
`raise_for_status` raises on); the same holds for each run-status poll. -/
theorem remote_ops_fail_iff (net : Request → HttpResponse)
    (polls : Nat → HttpResponse) (tid aid content fn : String) (bs : List Nat) :
    ((create_thread net).1 = [Request.postThreads] ∧
      ((∃ e, (create_thread net).2 = .error e) ↔
        400 ≤ (net Request.postThreads).status_code ∧
          (net Request.postThreads).status_code < 600)) ∧
    ((upload_file net bs fn).1 = [Request.postFiles fn bs] ∧
      ((∃ e, (upload_file net bs fn).2 = .error e) ↔
        400 ≤ (net (Request.postFiles fn bs)).status_code ∧
          (net (Request.postFiles fn bs)).status_code < 600)) ∧
    ((send_message net tid content none none).1 =
        [Request.postMessage tid
          ⟨"user", [ContentBlock.text (content ++ "\n" ++ instrucao_idioma)]⟩] ∧
      ((∃ e, (send_message net tid content none none).2 = .error e) ↔
        400 ≤ (net (Request.postMessage tid
            ⟨"user", [ContentBlock.text (content ++ "\n" ++ instrucao_idioma)]⟩)).status_code ∧
          (net (Request.postMessage tid
            ⟨"user", [ContentBlock.text (content ++ "\n" ++ instrucao_idioma)]⟩)).status_code
            < 600)) ∧
    ((list_messages net tid).1 = [Request.getMessages tid] ∧
      ((∃ e, (list_messages net tid).2 = .error e) ↔
        400 ≤ (net (Request.getMessages tid)).status_code ∧
          (net (Request.getMessages tid)).status_code < 600)) ∧
    ((create_run net tid aid).1 = [Request.postRun tid aid] ∧
      ((∃ e, (create_run net tid aid).2 = .error e) ↔
        400 ≤ (net (Request.postRun tid aid)).status_code ∧
          (net (Request.postRun tid aid)).status_code < 600)) ∧
    ((∃ e n sl, wait_for_run_completion polls 1 0 0 = some (.error e, n, sl)) ↔
      400 ≤ (polls 0).status_code ∧ (polls 0).status_code < 600) := by
  refine ⟨⟨rfl, ?_⟩, ⟨rfl, ?_⟩, ⟨by simp [send_message, truthyBytes, truthyName], ?_⟩,
    ⟨rfl, ?_⟩, ⟨rfl, ?_⟩, ?_⟩
  · by_cases h : 400 ≤ (net Request.postThreads).status_code ∧
        (net Request.postThreads).status_code < 600 <;>
      simp [create_thread, raise_for_status, h]
  · by_cases h : 400 ≤ (net (Request.postFiles fn bs)).status_code ∧
        (net (Request.postFiles fn bs)).status_code < 600 <;>
      simp [upload_file, raise_for_status, h]
  · by_cases h : 400 ≤ (net (Request.postMessage tid
          ⟨"user", [ContentBlock.text (content ++ "\n" ++ instrucao_idioma)]⟩)).status_code ∧
        (net (Request.postMessage tid
          ⟨"user", [ContentBlock.text (content ++ "\n" ++ instrucao_idioma)]⟩)).status_code
          < 600 <;>
      simp [send_message, truthyBytes, truthyName, raise_for_status, h]
  · by_cases h : 400 ≤ (net (Request.getMessages tid)).status_code ∧
        (net (Request.getMessages tid)).status_code < 600 <;>
      simp [list_messages, raise_for_status, h]
  · by_cases h : 400 ≤ (net (Request.postRun tid aid)).status_code ∧
        (net (Request.postRun tid aid)).status_code < 600 <;>
      simp [create_run, raise_for_status, h]
  · by_cases h : 400 ≤ (polls 0).status_code ∧ (polls 0).status_code < 600 <;>
      simp [wait_for_run_completion, raise_for_status, h]

/-- C9 counterexample: a 304 response is not a 2xx success, yet
`create_thread` does not fail on it — `raise_for_status` raises only for
4xx/5xx statuses, so "fails exactly on non-2xx" is false. -/
theorem create_thread_non2xx_cex :
    ¬ (200 ≤ (304 : Nat) ∧ (304 : Nat) < 300) ∧
    (create_thread (fun _ => ⟨304, "tid", "", []⟩)).2 = .ok "tid" := by
  constructor
  · decide
  · rfl

theorem wait_ok_char (polls : Nat → HttpResponse) :
    ∀ (fuel k sl : Nat) (s : String) (n m : Nat),
      wait_for_run_completion polls fuel k sl = some (.ok s, n, m) →
      s ∈ terminal_statuses ∧ k < n ∧ n ≤ k + fuel ∧
        raise_for_status (polls (n - 1)) = .ok () ∧ s = (polls (n - 1)).bodyStatus ∧
        (∀ j, k ≤ j → j < n - 1 →
          raise_for_status (polls j) = .ok () ∧ (polls j).bodyStatus ∉ terminal_statuses) ∧
        m = sl + (n - 1 - k)
  | 0, k, sl, s, n, m, h => by simp [wait_for_run_completion] at h
  | fuel + 1, k, sl, s, n, m, h => by
    simp only [wait_for_run_completion] at h
    rcases hrs : raise_for_status (polls k) with e | u
    · rw [hrs] at h
      simp at h
    · cases u
      rw [hrs] at h
      by_cases ht : (polls k).bodyStatus ∈ terminal_statuses
      · rw [if_pos ht] at h
        simp only [Option.some.injEq, Prod.mk.injEq, Except.ok.injEq] at h
        obtain ⟨hs, hn, hm⟩ := h
        subst hs
        subst hn
        subst hm
        refine ⟨ht, Nat.lt_succ_self k, by omega, ?_, ?_, ?_, by omega⟩
        · simpa [Nat.add_sub_cancel] using hrs
        · simp [Nat.add_sub_cancel]
        · intro j hj1 hj2
          omega
      · rw [if_neg ht] at h
        obtain ⟨hterm, hlt, hle, hok, hs, hmid, hm⟩ :=
          wait_ok_char polls fuel (k + 1) (sl + 1) s n m h
        refine ⟨hterm, by omega, by omega, hok, hs, ?_, by omega⟩
        intro j hj1 hj2
        rcases Nat.eq_or_lt_of_le hj1 with rfl | hj
        · exact ⟨hrs, ht⟩
        · exact hmid j hj hj2

theorem wait_none (polls : Nat → HttpResponse) :
    ∀ (fuel k sl : Nat),
      (∀ j, k ≤ j → j < k + fuel →
        raise_for_status (polls j) = .ok () ∧ (polls j).bodyStatus ∉ terminal_statuses) →
      wait_for_run_completion polls fuel k sl = none
  | 0, _, _, _ => rfl
  | fuel + 1, k, sl, hall => by
    have hk := hall k (Nat.le_refl k) (by omega)
    simp only [wait_for_run_completion, hk.1]
    rw [if_neg hk.2]
    exact wait_none polls fuel (k + 1) (sl + 1) (fun j hj1 hj2 => hall j (by omega) (by omega))

theorem wait_first_terminal (polls : Nat → HttpResponse) :
    ∀ (fuel k sl n : Nat), k ≤ n → n < k + fuel →
      raise_for_status (polls n) = .ok () →
      (polls n).bodyStatus ∈ terminal_statuses →
      (∀ j, k ≤ j → j < n →
        raise_for_status (polls j) = .ok () ∧ (polls j).bodyStatus ∉ terminal_statuses) →
      wait_for_run_completion polls fuel k sl =
        some (.ok (polls n).bodyStatus, n + 1, sl + (n - k))
  | 0, k, _, n, hkn, hn, _, _, _ => by omega
  | fuel + 1, k, sl, n, hkn, hn, hok, hterm, hpre => by
    rcases Nat.eq_or_lt_of_le hkn with rfl | hlt
    · simp only [wait_for_run_completion, hok]
      rw [if_pos hterm]
      simp [Nat.sub_self]
    · have hk := hpre k (Nat.le_refl k) hlt
      simp only [wait_for_run_completion, hk.1]
      rw [if_neg hk.2]
      rw [wait_first_terminal polls fuel (k + 1) (sl + 1) n (by omega) (by omega) hok hterm
        (fun j hj1 hj2 => hpre j (by omega) hj2)]
      have he : sl + 1 + (n - (k + 1)) = sl + (n - k) := by omega
      rw [he]

/-- C7: a value the poll loop returns is always one of the four terminal
statuses, namely the first polled terminal status (all earlier polls
succeeded and were non-terminal), with exactly one unit sleep between
successive polls (sleeps = polls − 1); while every poll so far is a
non-terminal success the loop is still running, whatever the poll budget
(no upper bound); and the first terminal poll ends the wait uniformly,
returning that status. -/
theorem wait_for_run_completion_terminal (polls : Nat → HttpResponse) (fuel : Nat) :
    (∀ s n m, wait_for_run_completion polls fuel 0 0 = some (.ok s, n, m) →
      s ∈ terminal_statuses ∧ 0 < n ∧ n ≤ fuel ∧
        raise_for_status (polls (n - 1)) = .ok () ∧ s = (polls (n - 1)).bodyStatus ∧
        (∀ j, j < n - 1 →
          raise_for_status (polls j) = .ok () ∧ (polls j).bodyStatus ∉ terminal_statuses) ∧
        m = n - 1) ∧
    ((∀ j, j < fuel →
        raise_for_status (polls j) = .ok () ∧ (polls j).bodyStatus ∉ terminal_statuses) →
      wait_for_run_completion polls fuel 0 0 = none) ∧
    (∀ n, n < fuel → raise_for_status (polls n) = .ok () →
      (polls n).bodyStatus ∈ terminal_statuses →
      (∀ j, j < n →
        raise_for_status (polls j) = .ok () ∧ (polls j).bodyStatus ∉ terminal_statuses) →
      wait_for_run_completion polls fuel 0 0 =
        some (.ok (polls n).bodyStatus, n + 1, n)) := by
  refine ⟨?_, ?_, ?_⟩
  · intro s n m h
    obtain ⟨h1, h2, h3, h4, h5, h6, h7⟩ := wait_ok_char polls fuel 0 0 s n m h
    exact ⟨h1, h2, by omega, h4, h5, fun j hj => h6 j (Nat.zero_le j) hj, by omega⟩
  · intro hall
    exact wait_none polls fuel 0 0 (fun j _ hj2 => hall j (by omega))
  · intro n hn hok hterm hpre
    have h := wait_first_terminal polls fuel 0 0 n (Nat.zero_le n) (by omega) hok hterm
      (fun j _ hj2 => hpre j hj2)
    simpa using h

/-- Witness for C7: with one non-terminal poll followed by a "completed"
poll, the loop returns "completed" after two polls and one sleep. -/
theorem wait_for_run_completion_terminal_witness :
    ((1 : Nat) < 3) ∧
    wait_for_run_completion
        (fun n => if n = 0 then ⟨200, "", "in_progress", []⟩ else ⟨200, "", "completed", []⟩)
        3 0 0 = some (.ok "completed", 2, 1) := by
  refine ⟨by decide, ?_⟩
  have h := (wait_for_run_completion_terminal
      (fun n => if n = 0 then ⟨200, "", "in_progress", []⟩ else ⟨200, "", "completed", []⟩)
      3).2.2 1 (by decide) (by rfl) (by decide) ?_
  · simpa using h
  · intro j hj
    have hj0 : j = 0 := by omega
    subst hj0
    exact ⟨rfl, by decide⟩

end ChatCore
